import Mathlib

/-!
# Verification of `src/script.py` (email-to-base)

Shallow embedding of the email-monitoring script.  The script polls an IMAP
mailbox, extracts details from each new message and posts them to a webhook.
External effects (IMAP connect / search / fetch, HTTP post, logout) are
modelled by an environment record `Env`: a `none` value models the Python
call raising an exception, a `some` value models its normal return.  The
control flow of `EmailMonitor.run`, `EmailMonitor._initialize_last_id`,
`EmailProcessor.extract_details` and the `__main__` block is translated
statement by statement; traces of `Event`s record the calls the code makes
and the assignment to `last_processed_id`.
-/

namespace EmailToBase

/-- One MIME part as seen by `extract_details` while iterating `msg.walk()`:
its content type (`part.get_content_type()`), the raw `Content-Disposition`
header (`none` when the header is absent, in which case Python's
`str(None)` yields the string `"None"`), and the decoded text payload
(`part.get_payload(decode=True).decode(errors="ignore")`; the
`errors="ignore"` decode is total, so the decoded result is modelled
directly as a `String`). -/
structure Part where
  contentType : String
  contentDispo : Option String
  payload : String
deriving Repr, DecidableEq

/-- An email message as consumed by `EmailProcessor.extract_details`.
Header lookups `msg["From"]`, `msg["Subject"]`, `msg["Date"]` return `None`
in Python when the header is absent, hence `Option String`.  `multipart`
models `msg.is_multipart()`; for a multipart message `parts` is the
sequence of parts in `msg.walk()` order (container parts included — their
content type is `multipart/...` so the text/plain test skips them); for a
single-part message `payload` is the decoded payload. -/
structure Msg where
  fromH : Option String
  subjectH : Option String
  dateH : Option String
  multipart : Bool
  parts : List Part
  payload : String
deriving Repr, DecidableEq

/-- The dictionary built by `extract_details` and posted as JSON.  The JSON
key of `sender` is `"from"` (the local variable in the code is `sender`).
The header fields are `Option String` because the code passes the header
lookups through unchanged, so an absent header yields JSON `null`. -/
structure MessageRecord where
  sender : Option String
  subject : Option String
  date : Option String
  body : String
deriving Repr, DecidableEq

/-- `needle <:+: hay` on character lists, executable: models Python's
substring test `needle in hay`. -/
def isSubOf (needle : List Char) : List Char → Bool
  | [] => needle.isEmpty
  | c :: rest => needle.isPrefixOf (c :: rest) || isSubOf needle rest

/-- Python's `needle in hay` for strings. -/
def containsSub (needle hay : String) : Bool :=
  isSubOf needle.toList hay.toList

/-- The test the loop in `extract_details` applies to each walked part:
`content_type == "text/plain" and "attachment" not in content_dispo`,
where `content_dispo = str(part.get("Content-Disposition"))` (so an
absent header reads as the string `"None"`, which does not contain
`"attachment"`). -/
def matchesPlain (p : Part) : Bool :=
  p.contentType = "text/plain" && !(containsSub "attachment" (p.contentDispo.getD "None"))

/-- The `for part in msg.walk(): ... break` loop of `extract_details`:
`body` starts as `""` and is replaced by the payload of the first part
passing `matchesPlain`, after which the loop breaks. -/
def bodyScan : List Part → String
  | [] => ""
  | p :: rest => if matchesPlain p then p.payload else bodyScan rest

/-- `EmailProcessor.extract_details(msg)`: headers are passed through
unchanged; the body is the first matching part's payload for a multipart
message (empty if none matches) and the decoded payload for a single-part
message. -/
def extract_details (msg : Msg) : MessageRecord :=
  { sender := msg.fromH
    subject := msg.subjectH
    date := msg.dateH
    body := if msg.multipart then bodyScan msg.parts else msg.payload }

/-- Observable actions of a monitor cycle: an IMAP connect attempt
(`EmailFetcher.connect`), a fetch of one id (`EmailFetcher.fetch_email`),
a webhook post for one id (`WebhookSender.send` — recorded when the call
is made, whether or not it raises), and the assignment
`self.last_processed_id = n`. -/
inductive Event
  | connect
  | fetch (eid : Nat)
  | send (eid : Nat)
  | setMark (n : Nat)
deriving Repr, DecidableEq

/-- The external world for one cycle.  `none` models the corresponding
Python call raising an exception; `some` models normal return.
`listing` is the id list returned by `get_email_ids_since`; `fetchMsg`
gives the parsed message returned by `fetch_email`; `sendR` gives the
result of `WebhookSender.send` on a record (`some b` = `requests.post`
returned, with `b` = (status == 200); `none` = the post raised);
`logout` is the result of `EmailFetcher.logout`. -/
structure Env where
  connect : Option Unit
  listing : Option (List Nat)
  fetchMsg : Nat → Option Msg
  sendR : MessageRecord → Option Bool
  logout : Option Unit

/-- Python's `max(ids)` for a non-empty list of `Nat` ids. -/
def listMax (l : List Nat) : Nat := l.foldl Nat.max 0

/-- The `for eid in ids:` loop of `EmailMonitor.run`, given the pre-call
watermark `last`.  Returns the events emitted (fetch and send calls, in
order) and `true` iff the loop completed without an exception; on a
raising fetch or send the loop stops (the exception propagates to the
`except` clause of `run`). -/
def runLoop (env : Env) (last : Nat) : List Nat → List Event × Bool
  | [] => ([], true)
  | eid :: rest =>
    if last < eid then
      match env.fetchMsg eid with
      | none => ([Event.fetch eid], false)
      | some msg =>
        match env.sendR (extract_details msg) with
        | none => ([Event.fetch eid, Event.send eid], false)
        | some _ =>
          let r := runLoop env last rest
          (Event.fetch eid :: Event.send eid :: r.1, r.2)
    else runLoop env last rest

/-- `EmailMonitor.run(self)` as a function of the pre-call watermark:
returns the post-call watermark and the event trace.  The whole body is
wrapped in `try/except`, so the model is a total function; a raising
connect or listing ends the cycle with the watermark unchanged; after a
completed loop `self.last_processed_id = latest_id` runs (the `setMark`
event); a raising `logout` only logs, so it affects neither the
watermark nor the recorded events. -/
def run (env : Env) (last : Nat) : Nat × List Event :=
  match env.connect with
  | none => (last, [Event.connect])
  | some _ =>
    match env.listing with
    | none => (last, [Event.connect])
    | some ids =>
      if ids.isEmpty then (last, [Event.connect])
      else
        let latest := listMax ids
        if last < latest then
          let r := runLoop env last ids
          if r.2 then (latest, Event.connect :: r.1 ++ [Event.setMark latest])
          else (last, Event.connect :: r.1)
        else (last, [Event.connect])

/-- `EmailMonitor._initialize_last_id(self)` as a function of the
environment, starting from the constructor's `self.last_processed_id = 0`:
returns the watermark after construction together with the event trace.
A raising connect or listing is caught with the watermark still 0; with a
listing in hand the watermark is set to `max(ids)` when `ids` is
non-empty; a raising `logout` is caught only AFTER that assignment, so it
does not reset the watermark. -/
def initLastId (env : Env) : Nat × List Event :=
  match env.connect with
  | none => (0, [Event.connect])
  | some _ =>
    match env.listing with
    | none => (0, [Event.connect])
    | some ids =>
      if ids.isEmpty then (0, [Event.connect])
      else (listMax ids, [Event.connect, Event.setMark (listMax ids)])

/-- Whether `_initialize_last_id` caught an exception (and logged
`"Initial setup error"`): a raising connect, a raising listing, or a
raising logout at the end. -/
def initRaised (env : Env) : Bool :=
  match env.connect with
  | none => true
  | some _ =>
    match env.listing with
    | none => true
    | some _ => env.logout.isNone

/-- The `Config` class: four values read from the process environment via
`os.getenv`, each `None` when the variable is unset.  The class performs
no validation of any kind. -/
structure Config where
  IMAP_HOST : Option String
  EMAIL_ACCOUNT : Option String
  EMAIL_PASSWORD : Option String
  WEBHOOK_URL : Option String
deriving Repr, DecidableEq

/-- `EmailMonitor.__init__`: the config values are stored (in the
`EmailFetcher` and `WebhookSender` collaborators) without being checked. -/
structure EmailMonitor where
  host : Option String
  user : Option String
  password : Option String
  webhookUrl : Option String
  last_processed_id : Nat

/-- `EmailMonitor(config)`: store the config values and run
`_initialize_last_id`; returns the constructed monitor and the events of
the initialization cycle. -/
def EmailMonitor.make (c : Config) (env : Env) : EmailMonitor × List Event :=
  let r := initLastId env
  (⟨c.IMAP_HOST, c.EMAIL_ACCOUNT, c.EMAIL_PASSWORD, c.WEBHOOK_URL, r.1⟩, r.2)

/-- The `__main__` block: `monitor = EmailMonitor(Config); monitor.run()`.
`envInit` is the world during construction, `envRun` during the single
`run()` call.  No configuration validation happens anywhere on this path:
for every config, construction proceeds directly to the IMAP connect. -/
def mainProgram (c : Config) (envInit envRun : Env) : Nat × List Event :=
  let mk := EmailMonitor.make c envInit
  let r := run envRun mk.1.last_processed_id
  (r.1, mk.2 ++ r.2)

/-- The ids whose fetch was attempted, in trace order. -/
def fetchedIds (tr : List Event) : List Nat :=
  tr.filterMap fun e => match e with | Event.fetch i => some i | _ => none

/-- The ids whose webhook send was attempted, in trace order. -/
def sentIds (tr : List Event) : List Nat :=
  tr.filterMap fun e => match e with | Event.send i => some i | _ => none

/-- How many times a trace assigns `last_processed_id`. -/
def countMarks (tr : List Event) : Nat :=
  tr.countP fun e => match e with | Event.setMark _ => true | _ => false

/-- A sequence of `run()` calls: the watermark threaded through. -/
def runSeq (envs : List Env) (last : Nat) : Nat :=
  envs.foldl (fun l e => (run e l).1) last

/-! ## Concrete fixtures for witnesses and counterexamples -/

/-- A plain single-part message. -/
def msgA : Msg := ⟨some "alice@example.com", some "hi", some "Mon, 1 Jan", false, [], "hello"⟩

/-- A single-part message distinguishable from `msgA`. -/
def msgB : Msg := ⟨some "bob@example.com", some "yo", some "Tue, 2 Jan", false, [], "other"⟩

/-- A message with no `From`, `Subject` or `Date` header. -/
def msgNoHead : Msg := ⟨none, none, none, false, [], "x"⟩

/-- An attachment-only multipart message: the walk yields the multipart
container, a PDF attachment and a `text/plain` part explicitly marked as
an attachment — no decodable plain-text body part. -/
def msgAttachOnly : Msg :=
  ⟨some "a", some "s", some "d", true,
    [⟨"multipart/mixed", none, ""⟩,
     ⟨"application/pdf", some "attachment; filename=x.pdf", "PDF"⟩,
     ⟨"text/plain", some "attachment; filename=y.txt", "TXT"⟩], ""⟩

/-- A multipart message with a text/plain attachment followed by two
plain-text candidate parts. -/
def msgMulti : Msg :=
  ⟨none, none, none, true,
    [⟨"multipart/alternative", none, ""⟩,
     ⟨"text/plain", some "attachment; filename=y.txt", "TXT"⟩,
     ⟨"text/plain", none, "first body"⟩,
     ⟨"text/plain", some "inline", "second body"⟩], ""⟩

/-- A healthy world: listing `[6, 7, 9]`, every fetch and send succeeds. -/
def envAllOk : Env := ⟨some (), some [6, 7, 9], fun _ => some msgA, fun _ => some true, some ()⟩

/-- A world where every send returns a non-200 status: listing `[6, 7]`,
fetches succeed, `requests.post` returns but with a failing status. -/
def envSendFalse : Env := ⟨some (), some [6, 7], fun _ => some msgA, fun _ => some false, some ()⟩

/-- A world where the webhook post raises: listing `[1, 2]`, fetches
succeed, every `requests.post` raises a transport exception. -/
def envSendRaise : Env := ⟨some (), some [1, 2], fun _ => some msgA, fun _ => none, some ()⟩

/-- A world with listing `[1, 2, 3]` where id 2 fetches to `msgB`, other
ids fetch to `msgA`; the post succeeds on `msgA`'s record and raises on
`msgB`'s record. -/
def envMidRaise : Env :=
  ⟨some (), some [1, 2, 3],
    fun i => if i = 2 then some msgB else some msgA,
    fun r => if r = extract_details msgB then none else some true, some ()⟩

/-- A world where the IMAP connect raises. -/
def envConnRaise : Env := ⟨none, some [1], fun _ => some msgA, fun _ => some true, some ()⟩

/-- A world where the search raises after a successful connect. -/
def envListRaise : Env := ⟨some (), none, fun _ => some msgA, fun _ => some true, some ()⟩

/-- A world where the fetch of any id raises: listing `[7]`. -/
def envFetchRaise : Env := ⟨some (), some [7], fun _ => none, fun _ => some true, some ()⟩

/-- A world for construction: listing `[101, 102, 99]`, logout raises. -/
def envInitLogoutRaise : Env := ⟨some (), some [101, 102, 99], fun _ => none, fun _ => none, none⟩

/-- A world for construction: listing `[101, 102, 99]`, logout succeeds. -/
def envInitOk : Env := ⟨some (), some [101, 102, 99], fun _ => none, fun _ => none, some ()⟩

/-- A fully dead world: every external call raises. -/
def envDead : Env := ⟨none, none, fun _ => none, fun _ => none, none⟩

/-- The configuration when none of the four environment variables is set:
`os.getenv` returns `None` for each. -/
def cfgNone : Config := ⟨none, none, none, none⟩

/-! ## Helper lemmas -/

@[simp] theorem countMarks_nil : countMarks [] = 0 := rfl

@[simp] theorem countMarks_cons_connect (tr : List Event) :
    countMarks (Event.connect :: tr) = countMarks tr := by
  simp [countMarks, List.countP_cons]

@[simp] theorem countMarks_cons_fetch (i : Nat) (tr : List Event) :
    countMarks (Event.fetch i :: tr) = countMarks tr := by
  simp [countMarks, List.countP_cons]

@[simp] theorem countMarks_cons_send (i : Nat) (tr : List Event) :
    countMarks (Event.send i :: tr) = countMarks tr := by
  simp [countMarks, List.countP_cons]

@[simp] theorem countMarks_cons_setMark (n : Nat) (tr : List Event) :
    countMarks (Event.setMark n :: tr) = countMarks tr + 1 := by
  simp [countMarks, List.countP_cons]

@[simp] theorem countMarks_append (t₁ t₂ : List Event) :
    countMarks (t₁ ++ t₂) = countMarks t₁ + countMarks t₂ :=
  List.countP_append ..

@[simp] theorem fetchedIds_nil : fetchedIds [] = [] := rfl

@[simp] theorem fetchedIds_cons_connect (tr : List Event) :
    fetchedIds (Event.connect :: tr) = fetchedIds tr := rfl

@[simp] theorem fetchedIds_cons_fetch (i : Nat) (tr : List Event) :
    fetchedIds (Event.fetch i :: tr) = i :: fetchedIds tr := rfl

@[simp] theorem fetchedIds_cons_send (i : Nat) (tr : List Event) :
    fetchedIds (Event.send i :: tr) = fetchedIds tr := rfl

@[simp] theorem fetchedIds_cons_setMark (n : Nat) (tr : List Event) :
    fetchedIds (Event.setMark n :: tr) = fetchedIds tr := rfl

@[simp] theorem fetchedIds_append (t₁ t₂ : List Event) :
    fetchedIds (t₁ ++ t₂) = fetchedIds t₁ ++ fetchedIds t₂ :=
  List.filterMap_append ..

@[simp] theorem sentIds_nil : sentIds [] = [] := rfl

@[simp] theorem sentIds_cons_connect (tr : List Event) :
    sentIds (Event.connect :: tr) = sentIds tr := rfl

@[simp] theorem sentIds_cons_fetch (i : Nat) (tr : List Event) :
    sentIds (Event.fetch i :: tr) = sentIds tr := rfl

@[simp] theorem sentIds_cons_send (i : Nat) (tr : List Event) :
    sentIds (Event.send i :: tr) = i :: sentIds tr := rfl

@[simp] theorem sentIds_cons_setMark (n : Nat) (tr : List Event) :
    sentIds (Event.setMark n :: tr) = sentIds tr := rfl

@[simp] theorem sentIds_append (t₁ t₂ : List Event) :
    sentIds (t₁ ++ t₂) = sentIds t₁ ++ sentIds t₂ :=
  List.filterMap_append ..

theorem foldl_max_le_init (l : List Nat) (b : Nat) : b ≤ l.foldl Nat.max b := by
  induction l generalizing b with
  | nil => exact Nat.le_refl b
  | cons x xs ih => exact Nat.le_trans (Nat.le_max_left b x) (ih (Nat.max b x))

theorem le_foldl_max (l : List Nat) (b a : Nat) (h : a ∈ l) : a ≤ l.foldl Nat.max b := by
  induction l generalizing b with
  | nil => cases h
  | cons x xs ih =>
    rcases List.mem_cons.mp h with rfl | hx
    · exact Nat.le_trans (Nat.le_max_right b a) (foldl_max_le_init xs (Nat.max b a))
    · exact ih (Nat.max b x) hx

/-- Every member of a list is at most `listMax` of the list. -/
theorem le_listMax {a : Nat} {l : List Nat} (h : a ∈ l) : a ≤ listMax l :=
  le_foldl_max l 0 a h

/-- Ids whose fetch the loop attempts are above the watermark and in the
listing, whether or not the loop ended in an exception. -/
theorem runLoop_fetched_mem (env : Env) (last : Nat) (ids : List Nat) :
    ∀ i ∈ fetchedIds (runLoop env last ids).1, last < i ∧ i ∈ ids := by
  induction ids with
  | nil => intro i hi; simp [runLoop] at hi
  | cons x xs ih =>
    intro i hi
    by_cases hx : last < x
    · cases hf : env.fetchMsg x with
      | none =>
        simp only [runLoop, if_pos hx, hf] at hi
        simp at hi
        subst hi
        exact ⟨hx, List.mem_cons_self i xs⟩
      | some msg =>
        cases hs : env.sendR (extract_details msg) with
        | none =>
          simp only [runLoop, if_pos hx, hf, hs] at hi
          simp at hi
          subst hi
          exact ⟨hx, List.mem_cons_self i xs⟩
        | some b =>
          simp only [runLoop, if_pos hx, hf, hs] at hi
          simp only [fetchedIds_cons_fetch, fetchedIds_cons_send, List.mem_cons] at hi
          rcases hi with rfl | hi
          · exact ⟨hx, List.mem_cons_self i xs⟩
          · rcases ih i hi with ⟨h1, h2⟩
            exact ⟨h1, List.mem_cons_of_mem x h2⟩
    · simp only [runLoop, if_neg hx] at hi
      rcases ih i hi with ⟨h1, h2⟩
      exact ⟨h1, List.mem_cons_of_mem x h2⟩

/-- Ids whose send the loop attempts are above the watermark and in the
listing, whether or not the loop ended in an exception. -/
theorem runLoop_sent_mem (env : Env) (last : Nat) (ids : List Nat) :
    ∀ i ∈ sentIds (runLoop env last ids).1, last < i ∧ i ∈ ids := by
  induction ids with
  | nil => intro i hi; simp [runLoop] at hi
  | cons x xs ih =>
    intro i hi
    by_cases hx : last < x
    · cases hf : env.fetchMsg x with
      | none =>
        simp only [runLoop, if_pos hx, hf] at hi
        simp at hi
      | some msg =>
        cases hs : env.sendR (extract_details msg) with
        | none =>
          simp only [runLoop, if_pos hx, hf, hs] at hi
          simp at hi
          subst hi
          exact ⟨hx, List.mem_cons_self i xs⟩
        | some b =>
          simp only [runLoop, if_pos hx, hf, hs] at hi
          simp only [sentIds_cons_fetch, sentIds_cons_send, List.mem_cons] at hi
          rcases hi with rfl | hi
          · exact ⟨hx, List.mem_cons_self i xs⟩
          · rcases ih i hi with ⟨h1, h2⟩
            exact ⟨h1, List.mem_cons_of_mem x h2⟩
    · simp only [runLoop, if_neg hx] at hi
      rcases ih i hi with ⟨h1, h2⟩
      exact ⟨h1, List.mem_cons_of_mem x h2⟩

/-- When fetch and send return normally on every id above the watermark,
the loop completes without exception, attempts exactly one fetch and one
send per listed id above the watermark, in listing order. -/
theorem runLoop_total (env : Env) (last : Nat) (ids : List Nat)
    (h : ∀ eid ∈ ids, last < eid →
      ∃ m, env.fetchMsg eid = some m ∧ (env.sendR (extract_details m)).isSome = true) :
    (runLoop env last ids).2 = true ∧
    fetchedIds (runLoop env last ids).1 = ids.filter (fun i => decide (last < i)) ∧
    sentIds (runLoop env last ids).1 = ids.filter (fun i => decide (last < i)) := by
  induction ids with
  | nil => exact ⟨rfl, rfl, rfl⟩
  | cons x xs ih =>
    have hxs : ∀ eid ∈ xs, last < eid →
        ∃ m, env.fetchMsg eid = some m ∧ (env.sendR (extract_details m)).isSome = true :=
      fun eid he => h eid (List.mem_cons_of_mem x he)
    rcases ih hxs with ⟨hok, hfet, hsen⟩
    by_cases hx : last < x
    · rcases h x (List.mem_cons_self x xs) hx with ⟨m, hm, hsome⟩
      cases hs : env.sendR (extract_details m) with
      | none => rw [hs] at hsome; cases hsome
      | some b =>
        refine ⟨?_, ?_, ?_⟩ <;>
          simp [runLoop, if_pos hx, hm, hs, List.filter_cons, hx, hok, hfet, hsen]
    · refine ⟨?_, ?_, ?_⟩ <;>
        simp [runLoop, if_neg hx, List.filter_cons, hx, hok, hfet, hsen]

/-- The per-id loop never assigns the watermark. -/
theorem runLoop_no_marks (env : Env) (last : Nat) (ids : List Nat) :
    countMarks (runLoop env last ids).1 = 0 := by
  induction ids with
  | nil => rfl
  | cons x xs ih =>
    by_cases hx : last < x
    · cases hf : env.fetchMsg x with
      | none => simp [runLoop, if_pos hx, hf, countMarks, List.countP_cons]
      | some msg =>
        cases hs : env.sendR (extract_details msg) with
        | none => simp [runLoop, if_pos hx, hf, hs, countMarks, List.countP_cons]
        | some b =>
          simp only [runLoop, if_pos hx, hf, hs]
          simpa [countMarks, List.countP_cons] using ih
    · simpa [runLoop, if_neg hx] using ih

/-- A loop that completes without exception over `l₁` continues into the
rest of the listing: the trace and outcome decompose over append. -/
theorem runLoop_append (env : Env) (last : Nat) (l₁ l₂ : List Nat)
    (h : (runLoop env last l₁).2 = true) :
    runLoop env last (l₁ ++ l₂) =
      ((runLoop env last l₁).1 ++ (runLoop env last l₂).1, (runLoop env last l₂).2) := by
  induction l₁ with
  | nil => simp [runLoop]
  | cons x xs ih =>
    rw [List.cons_append]
    by_cases hx : last < x
    · cases hf : env.fetchMsg x with
      | none =>
        simp only [runLoop, if_pos hx, hf] at h
        exact Bool.noConfusion h
      | some msg =>
        cases hs : env.sendR (extract_details msg) with
        | none =>
          simp only [runLoop, if_pos hx, hf, hs] at h
          exact Bool.noConfusion h
        | some b =>
          simp only [runLoop, if_pos hx, hf, hs] at h
          simp [runLoop, if_pos hx, hf, hs, ih h]
    · simp only [runLoop, if_neg hx] at h
      simp [runLoop, if_neg hx, ih h]

/-- The break-on-first-match loop agrees with `List.find?`. -/
theorem bodyScan_eq_find (ps : List Part) :
    bodyScan ps = (match ps.find? matchesPlain with
      | some p => p.payload
      | none => "") := by
  induction ps with
  | nil => rfl
  | cons p rest ih =>
    by_cases hp : matchesPlain p
    · simp [bodyScan, List.find?, hp]
    · simp only [List.find?, bodyScan]
      rw [if_neg hp, ih]
      cases hm : matchesPlain p
      · rfl
      · exact absurd hm hp

/-- One `run()` call never lowers the watermark. -/
theorem run_le (env : Env) (last : Nat) : last ≤ (run env last).1 := by
  cases hc : env.connect with
  | none => simp [run, hc]
  | some u =>
    cases hl : env.listing with
    | none => simp [run, hc, hl]
    | some ids =>
      by_cases he : ids.isEmpty
      · simp [run, hc, hl, he]
      · by_cases hlt : last < listMax ids
        · cases hr : (runLoop env last ids).2 <;>
            simp [run, hc, hl, he, hlt, hr, Nat.le_of_lt hlt]
        · simp [run, hc, hl, he, hlt]

/-- One `run()` call assigns the watermark at most once. -/
theorem run_marks_le_one (env : Env) (last : Nat) :
    countMarks (run env last).2 ≤ 1 := by
  cases hc : env.connect with
  | none => simp [run, hc, countMarks]
  | some u =>
    cases hl : env.listing with
    | none => simp [run, hc, hl, countMarks]
    | some ids =>
      by_cases he : ids.isEmpty
      · simp [run, hc, hl, he, countMarks]
      · by_cases hlt : last < listMax ids
        · cases hr : (runLoop env last ids).2 <;>
            simp [run, hc, hl, he, hlt, hr, runLoop_no_marks]
        · simp [run, hc, hl, he, hlt]

/-- The trace of one `run()` either touches nothing (empty listing, or a
listed maximum at or below the watermark, or an early exception), or its
fetch/send events are exactly those of the per-id loop. -/
theorem run_trace_spec (env : Env) (last : Nat) (ids : List Nat)
    (hc : env.connect = some ()) (hl : env.listing = some ids) :
    (fetchedIds (run env last).2 = [] ∧ sentIds (run env last).2 = [] ∧
      (ids = [] ∨ listMax ids ≤ last)) ∨
    (fetchedIds (run env last).2 = fetchedIds (runLoop env last ids).1 ∧
      sentIds (run env last).2 = sentIds (runLoop env last ids).1) := by
  by_cases he : ids.isEmpty
  · left
    refine ⟨?_, ?_, Or.inl (List.isEmpty_iff.mp he)⟩ <;> simp [run, hc, hl, he]
  · by_cases hlt : last < listMax ids
    · right
      cases hr : (runLoop env last ids).2 <;>
        constructor <;> simp [run, hc, hl, he, hlt, hr]
    · left
      refine ⟨?_, ?_, Or.inr (Nat.le_of_not_lt hlt)⟩ <;> simp [run, hc, hl, he, hlt]

/-! ## Claims about the extractor -/

/-- Claim C5: `extract_details` is total on the message model (a Lean
function on every `Msg` — the Python code never raises: `errors="ignore"`
decoding is total and header lookups return `None` rather than failing),
and when a multipart message has no decodable plain-text body part —
no walked part that is `text/plain` without an attachment disposition —
the body is the empty string.  In particular an attachment-only
multipart message yields an empty body. -/
theorem c5_extract_total_empty_body (msg : Msg)
    (hm : msg.multipart = true)
    (hno : ∀ p ∈ msg.parts, p.contentType = "text/plain" →
      containsSub "attachment" (p.contentDispo.getD "None") = true) :
    (extract_details msg).body = "" := by
  have hfind : msg.parts.find? matchesPlain = none := by
    rw [List.find?_eq_none]
    intro p hp hmp
    have h1 : p.contentType = "text/plain" := by
      by_contra h
      simp [matchesPlain, h] at hmp
    have h2 := hno p hp h1
    simp [matchesPlain, h1, h2] at hmp
  simp [extract_details, hm, bodyScan_eq_find, hfind]

/-- Witness for C5: the attachment-only multipart message has empty body. -/
theorem c5_witness :
    msgAttachOnly.multipart = true ∧ (extract_details msgAttachOnly).body = "" :=
  ⟨rfl, c5_extract_total_empty_body msgAttachOnly rfl (by decide)⟩

/-- Claim C6: for a multipart message, the body comes from the first
walked part that is `text/plain` and not marked as an attachment — and
from no later part — with the empty string when no part matches; for a
single-part message the body is the decoded payload. -/
theorem c6_body_first_matching_part (msg : Msg) :
    (msg.multipart = true →
      (extract_details msg).body =
        (match msg.parts.find? matchesPlain with
          | some p => p.payload
          | none => "")) ∧
    (msg.multipart = false → (extract_details msg).body = msg.payload) := by
  constructor
  · intro hm
    simp [extract_details, hm, bodyScan_eq_find]
  · intro hm
    simp [extract_details, hm]

/-- Witness for C6: of the three `text/plain` parts of `msgMulti` the
first non-attachment one supplies the body; a single-part message keeps
its payload. -/
theorem c6_witness :
    (extract_details msgMulti).body = "first body" ∧
    (extract_details msgA).body = "hello" :=
  ⟨((c6_body_first_matching_part msgMulti).1 rfl).trans (by decide),
   ((c6_body_first_matching_part msgA).2 rfl).trans rfl⟩

/-- Claim C10: a message lacking a `From`, `Subject` or `Date` header
yields `None` (JSON `null`), not a string, in the corresponding field of
the record built by `extract_details`. -/
theorem c10_missing_headers_yield_none (msg : Msg) :
    (msg.fromH = none → (extract_details msg).sender = none) ∧
    (msg.subjectH = none → (extract_details msg).subject = none) ∧
    (msg.dateH = none → (extract_details msg).date = none) := by
  refine ⟨fun h => ?_, fun h => ?_, fun h => ?_⟩ <;> simp [extract_details, h]

/-- Witness for C10: the headerless message maps to a record with three
`none` fields. -/
theorem c10_witness :
    (extract_details msgNoHead).sender = none ∧
    (extract_details msgNoHead).subject = none ∧
    (extract_details msgNoHead).date = none :=
  ⟨(c10_missing_headers_yield_none msgNoHead).1 rfl,
   (c10_missing_headers_yield_none msgNoHead).2.1 rfl,
   (c10_missing_headers_yield_none msgNoHead).2.2 rfl⟩

/-! ## Claims about the monitor -/

/-- Claim C1: with a successful connect and listing of distinct ids,
every fetched or sent id is strictly above the pre-call watermark and
comes from the listing (so ids at or below the watermark are never
fetched or sent), and when every fetch and post above the watermark
returns normally, the fetched ids and the sent ids are each exactly the
listed ids strictly above the watermark, in listing order, each exactly
once (an empty listing yields no fetch or send call). -/
theorem c1_exactly_new_ids_in_order (env : Env) (last : Nat) (ids : List Nat)
    (hc : env.connect = some ()) (hl : env.listing = some ids)
    (hnd : ids.Nodup) :
    (∀ i ∈ fetchedIds (run env last).2, last < i ∧ i ∈ ids) ∧
    (∀ i ∈ sentIds (run env last).2, last < i ∧ i ∈ ids) ∧
    ((∀ eid ∈ ids, last < eid →
        ∃ m, env.fetchMsg eid = some m ∧ (env.sendR (extract_details m)).isSome = true) →
      fetchedIds (run env last).2 = ids.filter (fun i => decide (last < i)) ∧
      sentIds (run env last).2 = ids.filter (fun i => decide (last < i)) ∧
      (fetchedIds (run env last).2).Nodup) := by
  rcases run_trace_spec env last ids hc hl with ⟨hf0, hs0, hcase⟩ | ⟨hfeq, hseq⟩
  · refine ⟨?_, ?_, ?_⟩
    · intro i hi
      rw [hf0] at hi
      cases hi
    · intro i hi
      rw [hs0] at hi
      cases hi
    · intro _
      have hfil : ids.filter (fun i => decide (last < i)) = [] := by
        rcases hcase with rfl | hle
        · rfl
        · rw [List.filter_eq_nil_iff]
          intro a ha
          simp only [decide_eq_true_eq]
          exact Nat.not_lt.mpr (Nat.le_trans (le_listMax ha) hle)
      rw [hf0, hs0, hfil]
      exact ⟨rfl, rfl, List.nodup_nil⟩
  · refine ⟨?_, ?_, ?_⟩
    · intro i hi
      rw [hfeq] at hi
      exact runLoop_fetched_mem env last ids i hi
    · intro i hi
      rw [hseq] at hi
      exact runLoop_sent_mem env last ids i hi
    · intro htot
      rcases runLoop_total env last ids htot with ⟨-, hf, hs⟩
      rw [hfeq, hseq, hf, hs]
      exact ⟨rfl, rfl, hnd.filter _⟩

/-- Witness for C1: from watermark 5, listing `[6, 7, 9]` is fetched and
sent in exactly that order. -/
theorem c1_witness :
    fetchedIds (run envAllOk 5).2 = [6, 7, 9] ∧
    sentIds (run envAllOk 5).2 = [6, 7, 9] := by
  have h := (c1_exactly_new_ids_in_order envAllOk 5 [6, 7, 9] rfl rfl (by decide)).2.2
    (fun eid _ _ => ⟨msgA, rfl, rfl⟩)
  exact ⟨h.1.trans (by decide), h.2.1.trans (by decide)⟩

/-- Claim C2: when the listing is non-empty with maximum above the
pre-call watermark and no call raises, the post-call watermark equals
that maximum, whatever the boolean send results were; every listed id
above the watermark is still sent (a failing status does not abort the
batch). -/
theorem c2_watermark_advances_to_max (env : Env) (last : Nat) (ids : List Nat)
    (hc : env.connect = some ()) (hl : env.listing = some ids)
    (hne : ids ≠ []) (hmax : last < listMax ids)
    (htot : ∀ eid ∈ ids, last < eid →
      ∃ m, env.fetchMsg eid = some m ∧ (env.sendR (extract_details m)).isSome = true) :
    (run env last).1 = listMax ids ∧
    sentIds (run env last).2 = ids.filter (fun i => decide (last < i)) := by
  rcases runLoop_total env last ids htot with ⟨hok, -, hsen⟩
  have he : ids.isEmpty = false := by
    simpa [List.isEmpty_iff] using hne
  constructor
  · simp [run, hc, hl, he, hmax, hok]
  · simp [run, hc, hl, he, hmax, hok, hsen]

/-- Witness for C2: from watermark 5 with listing `[6, 7]` and every
post returning a non-200 status, both ids are sent and the watermark
still becomes 7. -/
theorem c2_witness :
    (run envSendFalse 5).1 = 7 ∧ sentIds (run envSendFalse 5).2 = [6, 7] := by
  have h := c2_watermark_advances_to_max envSendFalse 5 [6, 7] rfl rfl (by decide)
    (by decide) (fun eid _ _ => ⟨msgA, rfl, rfl⟩)
  exact ⟨h.1.trans (by decide), h.2.trans (by decide)⟩

/-- Claim C4: `run()` returns normally on every environment (the model is
a total function because the whole body sits in `try/except`), and an
exception raised during connect, during the listing, or during any
per-id fetch/extract/send step — i.e. before the watermark assignment is
reached — leaves the watermark unchanged. -/
theorem c4_exception_leaves_watermark (env : Env) (last : Nat) :
    (env.connect = none → run env last = (last, [Event.connect])) ∧
    (env.listing = none → (run env last).1 = last) ∧
    (∀ ids, env.listing = some ids → (runLoop env last ids).2 = false →
      (run env last).1 = last) := by
  refine ⟨fun h => ?_, fun h => ?_, fun ids hl hfail => ?_⟩
  · simp [run, h]
  · cases hc : env.connect with
    | none => simp [run, hc]
    | some u => simp [run, hc, h]
  · cases hc : env.connect with
    | none => simp [run, hc]
    | some u =>
      by_cases he : ids.isEmpty
      · simp [run, hc, hl, he]
      · by_cases hlt : last < listMax ids
        · simp [run, hc, hl, he, hlt, hfail]
        · simp [run, hc, hl, he, hlt]

/-- Witness for C4: a raising connect, a raising listing and a raising
fetch each leave the watermark at 5. -/
theorem c4_witness :
    run envConnRaise 5 = (5, [Event.connect]) ∧
    (run envListRaise 5).1 = 5 ∧
    (run envFetchRaise 5).1 = 5 :=
  ⟨(c4_exception_leaves_watermark envConnRaise 5).1 rfl,
   (c4_exception_leaves_watermark envListRaise 5).2.1 rfl,
   (c4_exception_leaves_watermark envFetchRaise 5).2.2 [7] rfl (by decide)⟩

/-- Across any sequence of `run()` calls the watermark never decreases. -/
theorem runSeq_le (envs : List Env) (last : Nat) : last ≤ runSeq envs last := by
  induction envs generalizing last with
  | nil => exact Nat.le_refl last
  | cons e es ih => exact Nat.le_trans (run_le e last) (ih (run e last).1)

/-- Claim C9: the watermark never decreases — one `run()` can only keep
or raise it, and so can any sequence of `run()` calls (construction
starts it at 0, a lower bound of every `Nat`) — and a single `run()`
assigns it at most once. -/
theorem c9_watermark_monotone :
    (∀ env last, last ≤ (run env last).1 ∧ countMarks (run env last).2 ≤ 1) ∧
    (∀ envs last, last ≤ runSeq envs last) :=
  ⟨fun env last => ⟨run_le env last, run_marks_le_one env last⟩,
   fun envs last => runSeq_le envs last⟩

/-! ## Corrected claims -/

/-- Counterexample to C3 as stated: from watermark 0 with listing
`[1, 2]` where every webhook post raises a transport exception, the post
for id 1 raises, id 2 is never fetched (processing does NOT continue)
and the watermark does NOT advance — the exception is caught only by the
top-level handler of `run()`, which ends the whole cycle. -/
theorem c3_counterexample :
    envSendRaise.sendR (extract_details msgA) = none ∧
    envSendRaise.listing = some [1, 2] ∧
    (run envSendRaise 0).1 = 0 ∧
    Event.fetch 2 ∉ (run envSendRaise 0).2 := by
  refine ⟨rfl, rfl, rfl, ?_⟩
  decide

/-- Claim C3 as amended: a transport-level exception raised by the send
for one id aborts the cycle — it is caught and logged by the top-level
handler of `run()`, the remaining listed ids are not processed, and the
watermark does not advance.  (Only a `False` send result — a non-200
status — is per-message.) -/
theorem c3_send_exception_aborts_cycle (env : Env) (last : Nat)
    (l₁ l₂ : List Nat) (e : Nat) (m : Msg)
    (hc : env.connect = some ()) (hl : env.listing = some (l₁ ++ e :: l₂))
    (h1 : ∀ eid ∈ l₁, last < eid →
      ∃ m', env.fetchMsg eid = some m' ∧ (env.sendR (extract_details m')).isSome = true)
    (he : last < e) (hf : env.fetchMsg e = some m)
    (hs : env.sendR (extract_details m) = none) :
    (run env last).1 = last ∧
    (run env last).2 =
      Event.connect :: ((runLoop env last l₁).1 ++ [Event.fetch e, Event.send e]) := by
  rcases runLoop_total env last l₁ h1 with ⟨hok, -, -⟩
  have hids : (l₁ ++ e :: l₂).isEmpty = false := by
    cases l₁ <;> rfl
  have hmem : e ∈ l₁ ++ e :: l₂ := List.mem_append.mpr (Or.inr (List.mem_cons_self e l₂))
  have hlt : last < listMax (l₁ ++ e :: l₂) := Nat.lt_of_lt_of_le he (le_listMax hmem)
  have htail : runLoop env last (e :: l₂) = ([Event.fetch e, Event.send e], false) := by
    simp [runLoop, if_pos he, hf, hs]
  have hloop : runLoop env last (l₁ ++ e :: l₂) =
      ((runLoop env last l₁).1 ++ [Event.fetch e, Event.send e], false) := by
    rw [runLoop_append env last l₁ (e :: l₂) hok, htail]
  constructor <;> simp [run, hc, hl, hids, hlt, hloop]

/-- Witness for the amended C3: listing `[1, 2, 3]`, the post for id 1
succeeds, the post for id 2 raises: id 3 is never touched and the
watermark stays 0. -/
theorem c3_witness :
    (run envMidRaise 0).1 = 0 ∧
    (run envMidRaise 0).2 =
      [Event.connect, Event.fetch 1, Event.send 1, Event.fetch 2, Event.send 2] := by
  have h := c3_send_exception_aborts_cycle envMidRaise 0 [1] [3] 2 msgB rfl rfl
    (by
      intro eid hmem hlt
      have heq : eid = 1 := by
        simpa using hmem
      subst heq
      exact ⟨msgA, rfl, by decide⟩)
    (by decide) rfl (by decide)
  exact ⟨h.1, h.2.trans (by decide)⟩

/-- Counterexample to C7 as stated: during construction, listing
`[101, 102, 99]` succeeds but the final `logout()` raises.  The
exception is caught and logged (`initRaised` is `true`), yet the Monitor
proceeds with watermark 102, not 0 — the claim's "any exception during
this initialization phase … proceeds with watermark 0" fails for an
exception raised after the watermark assignment. -/
theorem c7_counterexample :
    initRaised envInitLogoutRaise = true ∧
    (initLastId envInitLogoutRaise).1 = 102 ∧
    (initLastId envInitLogoutRaise).1 ≠ 0 := by
  refine ⟨rfl, ?_, ?_⟩ <;> decide

/-- Claim C7 as amended: construction initializes the watermark to the
maximum listed id (0 for an empty listing); an exception during connect
or during the listing is caught and logged and the Monitor proceeds with
watermark 0; an exception during the final logout is also caught and
logged but leaves the already-assigned watermark in place. -/
theorem c7_init_watermark (env : Env) :
    (env.connect = none ∨ env.listing = none →
      (initLastId env).1 = 0 ∧ initRaised env = true) ∧
    (∀ ids, env.connect = some () → env.listing = some ids →
      (initLastId env).1 = if ids.isEmpty then 0 else listMax ids) := by
  constructor
  · rintro (h | h)
    · simp [initLastId, initRaised, h]
    · cases hc : env.connect with
      | none => simp [initLastId, initRaised, hc]
      | some u => simp [initLastId, initRaised, hc, h]
  · intro ids hc hl
    by_cases he : ids.isEmpty <;> simp [initLastId, hc, hl, he]

/-- Witness for the amended C7: a dead world leaves the watermark 0 with
an error logged; a healthy construction over `[101, 102, 99]` sets the
watermark to the maximum, 102. -/
theorem c7_witness :
    ((initLastId envDead).1 = 0 ∧ initRaised envDead = true) ∧
    (initLastId envInitOk).1 = 102 :=
  ⟨(c7_init_watermark envDead).1 (Or.inl rfl),
   ((c7_init_watermark envInitOk).2 [101, 102, 99] rfl rfl).trans (by decide)⟩

/-- Counterexample to C8 as stated: with all four configuration values
absent, the program does not halt with a configuration error — both the
construction phase and the `run()` call proceed to an IMAP connect
attempt (network activity), whose failure is merely logged. -/
theorem c8_counterexample :
    cfgNone.IMAP_HOST = none ∧ cfgNone.EMAIL_ACCOUNT = none ∧
    cfgNone.EMAIL_PASSWORD = none ∧ cfgNone.WEBHOOK_URL = none ∧
    (mainProgram cfgNone envDead envDead).2 = [Event.connect, Event.connect] := by
  exact ⟨rfl, rfl, rfl, rfl, rfl⟩

/-- Claim C8 as amended: the program performs no configuration
validation at all — `Config` stores `None` for each unset variable, and
for every configuration (required values present or not) execution
proceeds directly to the first IMAP connect attempt; connection errors
are then caught and logged, never halting the program. -/
theorem c8_no_config_validation (c : Config) (envInit envRun : Env) :
    (mainProgram c envInit envRun).2.head? = some Event.connect := by
  have hinit : ∃ tr, (initLastId envInit).2 = Event.connect :: tr := by
    cases hc : envInit.connect with
    | none => exact ⟨[], by simp [initLastId, hc]⟩
    | some u =>
      cases hl : envInit.listing with
      | none => exact ⟨[], by simp [initLastId, hc, hl]⟩
      | some ids =>
        by_cases he : ids.isEmpty
        · exact ⟨[], by simp [initLastId, hc, hl, he]⟩
        · exact ⟨[Event.setMark (listMax ids)], by simp [initLastId, hc, hl, he]⟩
  rcases hinit with ⟨tr, htr⟩
  simp [mainProgram, EmailMonitor.make, htr]

end EmailToBase
